import Mathlib

/-!
Verification of the cruddl AQL generator (`src/database/arangodb/aql-generator.ts`),
the i18n validator helper (`ModelLocalizationProvider.isExistingAndAdd`) and the
time-to-live filter (`src/project/time-to-live.ts`).

The query tree, the compilation context and the lowering pass are embedded as
executable Lean definitions.  AQL fragments are modelled as lists of tokens: a
tagged template `aql` from the source becomes an explicit token list where every
template chunk is a `code` token and every interpolated plain value becomes a
`boundValue` token (the fragment builder of the source binds plain values as
query parameters).  The recursive lowering pass `processNode` takes an explicit
fuel argument for termination; on every actual query tree a large enough fuel
reproduces the recursion of the source, and all theorems hold for every fuel.
-/

namespace Cruddl

/-- A JSON-like runtime value, as stored in `LiteralQueryNode.value`. -/
inductive JSValue where
  | vstr (s : String)
  | vint (n : Int)
  | vbool (b : Bool)
  | vnull
  | vlist (items : List JSValue)

/-- Modelled from the spec (§4.B): the fragment builder (`aql.ts` is not part of
the provided sources).  A fragment is a sequence of tokens: raw template text
(`code`), bound parameter values (`boundValue`), safe identifiers emitted
verbatim (`identifier`), tracked collection names (`collection`), transient
variables (`variable`) and cross-query result variables
(`queryResultVariable`). -/
inductive AQLToken where
  | code (s : String)
  | boundValue (v : JSValue)
  | identifier (name : String)
  | collection (name : String)
  | variable (label : String)
  | queryResultVariable (label : String)

/-- An AQL fragment is a sequence of tokens; template interpolation is
concatenation. -/
abbrev AQLFragment := List AQLToken

/-- Modelled from the spec (§4.B): `join(frags, sep)` of the fragment builder. -/
def aqlJoin (frags : List AQLFragment) (sep : AQLFragment) : AQLFragment :=
  match frags with
  | [] => []
  | [f] => f
  | f :: rest => f ++ sep ++ aqlJoin rest sep

/-- Modelled from the spec (§4.B): `lines(frags)` joins fragments with
newlines. -/
def aqlLines (frags : List AQLFragment) : AQLFragment :=
  aqlJoin frags [.code "\n"]

/-- Modelled from the spec (§4.B): `indent(frag)`; the indentation is purely
cosmetic, so it is modelled as a marker code token in front of the fragment. -/
def aqlIndent (frag : AQLFragment) : AQLFragment :=
  .code "  " :: frag

/-- `aqlExt.parenthesizeList` from the source: wraps content lines in
parentheses. -/
def parenthesizeList (content : List AQLFragment) : AQLFragment :=
  aqlLines [[.code "("], aqlIndent (aqlLines content), [.code ")"]]

/-- `aqlExt.parenthesizeObject` from the source: `FIRST` applied to a
parenthesized list. -/
def parenthesizeObject (content : List AQLFragment) : AQLFragment :=
  .code "FIRST" :: parenthesizeList content

/-- Modelled from the spec (§4.B, §8.3): `aql.isSafeIdentifier` accepts exactly
the identifiers matching `[A-Za-z_][A-Za-z0-9_]*`. -/
def isSafeIdentifier (s : String) : Bool :=
  match s.toList with
  | [] => false
  | c :: rest => (c.isAlpha || c == '_') && rest.all (fun d => d.isAlphanum || d == '_')

/-- Prefix test on character lists. -/
def listIsPrefix (a b : List Char) : Bool :=
  match a, b with
  | [], _ => true
  | _ :: _, [] => false
  | x :: xs, y :: ys => x == y && listIsPrefix xs ys

/-- Substring test on character lists. -/
def listContainsSub (needle : List Char) (s : List Char) : Bool :=
  match s with
  | [] => needle.isEmpty
  | c :: rest => listIsPrefix needle (c :: rest) || listContainsSub needle rest

/-- True when some raw `code` token of the fragment contains the given needle
as a substring (used to detect emitted keywords such as `FOR`, `LIMIT` or
`ANALYZER`). -/
def fragMentionsCode (needle : String) (f : AQLFragment) : Bool :=
  f.any fun t =>
    match t with
    | .code s => listContainsSub needle.toList s.toList
    | _ => false

/-- A field of the model (`Field` from `model`); only the name is relevant to
the generator. -/
structure FieldT where
  name : String
deriving DecidableEq

/-- Modelled from the spec (§6): the compiler requires the collection name of a
root entity type as model metadata, so the type carries it directly. -/
structure RootEntityTypeT where
  name : String
  collectionName : String
deriving DecidableEq

/-- Modelled from the spec (§6): a relation carries its edge collection name
and its two endpoint types as model metadata. -/
structure RelationT where
  collectionName : String
  fromType : RootEntityTypeT
  toType : RootEntityTypeT
deriving DecidableEq

/-- One side of a relation (`RelationSide` of the model). -/
structure RelationSideT where
  relation : RelationT
  isFromSide : Bool
deriving DecidableEq

/-- Modelled from the spec (§6): `getCollectionNameForRootEntity` of
`arango-basics` (not part of the provided sources) yields the collection name
recorded in the model metadata. -/
def getCollectionNameForRootEntity (t : RootEntityTypeT) : String :=
  t.collectionName

/-- Modelled from the spec (§6): `getCollectionNameForRelation` yields the edge
collection name recorded in the model metadata. -/
def getCollectionNameForRelation (r : RelationT) : String :=
  r.collectionName

/-- `IDENTITY_ANALYZER` from `schema-migration/arango-search-helpers.ts`. -/
def IDENTITY_ANALYZER : String := "identity"

/-- A `VariableQueryNode`: the source keys scopes on the object identity of the
variable node, reproduced here with an explicit numeric id (spec §9, design
note on variable identity). -/
structure QVarNode where
  id : Nat
  label : String
deriving DecidableEq

/-- An AQL-side variable: `AQLVariable` (transient) or `AQLQueryResultVariable`
(the result binding of a pre-execution query). -/
inductive AQLVar where
  | transient (label : String)
  | queryResult (label : String)
deriving DecidableEq

/-- The token a bound variable contributes to a fragment (`aql`-interpolation
of an `AQLVariable`). -/
def tokenOfAQLVar : AQLVar → AQLToken
  | .transient label => .variable label
  | .queryResult label => .queryResultVariable label

/-- True for `AQLQueryResultVariable` bindings (the `instanceof` test of
`newPreExecContext`). -/
def AQLVar.isQueryResult : AQLVar → Bool
  | .queryResult _ => true
  | .transient _ => false

/-- `AccessType` from the source. -/
inductive AccessType where
  | READ
  | WRITE
deriving DecidableEq

/-- The collection-access bookkeeping of `QueryContext`.  In the source the two
sets are JavaScript `Set`s shared by reference between a context and all
contexts derived from it; here they are threaded explicitly through the
lowering pass, which models exactly that sharing. -/
structure AccessSets where
  readAccessedCollections : List String
  writeAccessedCollections : List String
deriving DecidableEq

/-- Insertion into a JavaScript `Set`: keeps insertion order, ignores
duplicates. -/
def setAdd (s : List String) (x : String) : List String :=
  if s.contains x then s else s ++ [x]

/-- `QueryContext.addCollectionAccess` from the source. -/
def AccessSets.addCollectionAccess (st : AccessSets) (collection : String) (accessType : AccessType) : AccessSets :=
  match accessType with
  | .READ => { st with readAccessedCollections := setAdd st.readAccessedCollections collection }
  | .WRITE => { st with writeAccessedCollections := setAdd st.writeAccessedCollections collection }

/-- The variable-scope part of `QueryContext`: the map from variable query
nodes to AQL variables (a JavaScript `Map`, modelled as an association list in
insertion order). -/
structure QueryContext where
  variableMap : List (QVarNode × AQLVar)

/-- Lookup in the variable map (`Map.get`). -/
def QueryContext.lookupVar (c : QueryContext) (v : QVarNode) : Option AQLVar :=
  (c.variableMap.find? (fun p => p.1 == v)).map (·.2)

/-- `QueryContext.newNestedContextWithNewVariable` from the source: fails when
the variable identity is already bound, otherwise clones the map and adds the
one binding. -/
def QueryContext.newNestedContextWithNewVariable (c : QueryContext) (variableNode : QVarNode) (aqlVariable : AQLVar) : Except String QueryContext :=
  if (c.lookupVar variableNode).isSome then
    .error ("Variable " ++ variableNode.label ++ " is introduced twice")
  else
    .ok { variableMap := c.variableMap ++ [(variableNode, aqlVariable)] }

/-- `QueryContext.introduceVariable` from the source: binds the variable node
to a fresh transient AQL variable named after its label. -/
def QueryContext.introduceVariable (c : QueryContext) (variableNode : QVarNode) : Except String QueryContext :=
  c.newNestedContextWithNewVariable variableNode (.transient variableNode.label)

/-- `QueryContext.getVariable` from the source: resolves the variable node to
an AQL fragment, failing when it was never introduced. -/
def QueryContext.getVariableFrag (c : QueryContext) (variableNode : QVarNode) : Except String AQLFragment :=
  match c.lookupVar variableNode with
  | none => .error ("Variable " ++ variableNode.label ++ " is used but not introduced")
  | some v => .ok [tokenOfAQLVar v]

/-- `QueryContext.newPreExecContext` from the source: a fresh context keeping
only the query-result bindings of the parent.  (In the source the new context
additionally shares the two collection sets of the parent by reference; those
sets are threaded separately through the lowering pass here, so that sharing is
structural.) -/
def QueryContext.newPreExecContext (c : QueryContext) : QueryContext :=
  { variableMap := c.variableMap.filter (fun p => p.2.isQueryResult) }

/-- `BinaryOperator` from the query tree. -/
inductive BinaryOperator where
  | AND | OR | EQUAL | UNEQUAL | LESS_THAN | LESS_THAN_OR_EQUAL
  | GREATER_THAN | GREATER_THAN_OR_EQUAL | IN | ADD | SUBTRACT | MULTIPLY
  | DIVIDE | MODULO | CONTAINS | STARTS_WITH | ENDS_WITH | LIKE | APPEND | PREPEND
deriving DecidableEq

/-- `UnaryOperator` from the query tree. -/
inductive UnaryOperator where
  | NOT
  | JSON_STRINGIFY
deriving DecidableEq

/-- `BinaryOperatorWithLanguage` from the query tree. -/
inductive BinaryOperatorWithLanguage where
  | QUICKSEARCH_STARTS_WITH
  | QUICKSEARCH_CONTAINS_ANY_WORD
  | QUICKSEARCH_CONTAINS_PREFIX
  | QUICKSEARCH_CONTAINS_PHRASE
deriving DecidableEq

/-- `BasicType` from the query tree. -/
inductive BasicType where
  | SCALAR | LIST | OBJECT | NULL
deriving DecidableEq

/-- `OrderDirection` from the query tree. -/
inductive OrderDirection where
  | ASCENDING
  | DESCENDING
deriving DecidableEq

/-- `Quantifier` from `query-tree/quantifiers`. -/
inductive Quantifier where
  | qsome
  | qevery
  | qnone
deriving DecidableEq

/-- The query tree (`QueryNode` family).  Every constructor corresponds to one
node class of the source; the constructors carry exactly the fields the
generator reads.  Order clauses are pairs of value node and direction; edge
identifiers are pairs of optional `fromIDNode` and `toIDNode`. -/
inductive QueryNode where
  | literal (value : JSValue)
  | nullNode
  | constBool (value : Bool)
  | constInt (value : Int)
  | variable (node : QVarNode)
  | field (objectNode : QueryNode) (fieldF : FieldT) (path : List FieldT)
  | fieldPath (objectNode : QueryNode) (path : List FieldT)
  | rootEntityID (objectNode : QueryNode)
  | safeList (sourceNode : QueryNode)
  | listNode (itemNodes : List QueryNode)
  | binaryOp (operator : BinaryOperator) (lhs rhs : QueryNode)
  | unaryOp (operator : UnaryOperator) (valueNode : QueryNode)
  | conditional (condition expr1 expr2 : QueryNode)
  | typeCheck (valueNode : QueryNode) (type : BasicType)
  | count (listNode : QueryNode)
  | entities (rootEntityType : RootEntityTypeT)
  | followEdge (relationSide : RelationSideT) (sourceEntityNode : QueryNode)
  | transformList (listNode : QueryNode) (itemVariable : QVarNode)
      (filterNode : QueryNode) (orderBy : List (QueryNode × OrderDirection))
      (skip : Nat) (maxCount : Option Nat) (innerNode : QueryNode)
  | quantifierFilter (quantifier : Quantifier) (listNode : QueryNode)
      (itemVariable : QVarNode) (conditionNode : QueryNode)
  | operatorWithLanguage (operator : BinaryOperatorWithLanguage)
      (lhs rhs : QueryNode) (quickSearchLanguage : Option String)
  | variableAssignment (variableNode : QVarNode) (variableValueNode resultNode : QueryNode)
  | addEdges (relation : RelationT) (edges : List (Option QueryNode × Option QueryNode))
  | removeEdges (relation : RelationT) (fromIDsNode toIDsNode : Option QueryNode)
  | setEdge (relation : RelationT) (existingEdge newEdge : Option QueryNode × Option QueryNode)

/-- `getAQLOperator` from the source: the operators with a direct native
token. -/
def getAQLOperator (op : BinaryOperator) : Option AQLFragment :=
  match op with
  | .AND => some [.code "&&"]
  | .OR => some [.code "||"]
  | .EQUAL => some [.code "=="]
  | .UNEQUAL => some [.code "!="]
  | .LESS_THAN => some [.code "<"]
  | .LESS_THAN_OR_EQUAL => some [.code "<="]
  | .GREATER_THAN => some [.code ">"]
  | .GREATER_THAN_OR_EQUAL => some [.code ">="]
  | .IN => some [.code "IN"]
  | .ADD => some [.code "+"]
  | .SUBTRACT => some [.code "-"]
  | .MULTIPLY => some [.code "*"]
  | .DIVIDE => some [.code "/"]
  | .MODULO => some [.code "%"]
  | _ => none

/-- `isStringCaseInsensitive` from the source: true when the string has no
case-sensitive characters (`str.toLowerCase() === str.toUpperCase()`). -/
def isStringCaseInsensitive (str : String) : Bool :=
  str.toLower == str.toUpper

/-- A LIKE wildcard character (`%` matches any sequence, `_` any single
character). -/
def isLikeWildcard (c : Char) : Bool :=
  c == '%' || c == '_'

/-- The result of the LIKE pattern analysis. -/
structure LikePatternAnalysis where
  literalPrefix : String
  isSimplePrefixPattern : Bool
  isLiteralPattern : Bool

/-- Modelled from the spec (§4.D.2): `analyzeLikePatternPrefix` from
`database/like-helpers` (not part of the provided sources).  `literalPrefix` is
the longest leading run of non-wildcard characters; the pattern is literal when
it contains no wildcard at all, and a simple prefix pattern when the literal
prefix is followed by `%` only. -/
def analyzeLikePatternPrefix (pattern : String) : LikePatternAnalysis :=
  let chars := pattern.toList
  let prefixChars := chars.takeWhile (fun c => !isLikeWildcard c)
  let rest := chars.dropWhile (fun c => !isLikeWildcard c)
  { literalPrefix := String.mk prefixChars
    isLiteralPattern := rest.isEmpty
    isSimplePrefixPattern := !rest.isEmpty && rest.all (fun c => c == '%') }

/-- The highest code point, used as the exclusive upper bound of the fast
prefix range (`String.fromCodePoint(0x10FFFF)` in the source). -/
def maxLikeChar : Char := Char.ofNat 0x10FFFF

/-- `getFastStartsWithQuery` from the source: `IS_STRING(lhs)` for the empty
prefix, otherwise the collation-safe range
`(lhs >= UPPER(prefix) && lhs < LOWER(prefix + U+10FFFF))`. -/
def getFastStartsWithQuery (lhs : AQLFragment) (rhsValue : String) : AQLFragment :=
  if rhsValue.length == 0 then
    [.code "IS_STRING("] ++ lhs ++ [.code ")"]
  else
    let maxStr := rhsValue.push maxLikeChar
    [.code "("] ++ lhs ++ [.code " >= UPPER(", .boundValue (.vstr rhsValue), .code ") && "]
      ++ lhs ++ [.code " < LOWER(", .boundValue (.vstr maxStr), .code "))"]

/-- `getEqualsIgnoreCaseQuery` from the source: plain equality for strings
without case-sensitive characters, otherwise the range
`(lhs >= UPPER(value) && lhs <= LOWER(value))`. -/
def getEqualsIgnoreCaseQuery (lhs : AQLFragment) (rhsValue : String) : AQLFragment :=
  if isStringCaseInsensitive rhsValue then
    [.code "("] ++ lhs ++ [.code " == ", .boundValue (.vstr rhsValue), .code ")"]
  else
    [.code "("] ++ lhs ++ [.code " >= UPPER(", .boundValue (.vstr rhsValue), .code ") && "]
      ++ lhs ++ [.code " <= LOWER(", .boundValue (.vstr rhsValue), .code "))"]

/-- `getFieldAccessFragment` from the source: dotted access for safe
identifiers, bracketed bound value otherwise. -/
def getFieldAccessFragment (f : FieldT) : AQLFragment :=
  if isSafeIdentifier f.name then
    [.code ".", .identifier f.name]
  else
    [.code "[", .boundValue (.vstr f.name), .code "]"]

/-- `getFieldPathAccessFragment` from the source: dotted access for each path
segment. -/
def getFieldPathAccessFragment (path : List FieldT) : AQLFragment :=
  match path with
  | [] => []
  | f :: rest => [.code ".", .identifier f.name] ++ getFieldPathAccessFragment rest

/-- Modelled from the spec (§4.A): `simplifyBooleans` from `query-tree/utils`
(not part of the provided sources) performs constant folding over AND/OR/NOT
with `ConstBool` operands and short-circuit simplification. -/
def simplifyBooleans (node : QueryNode) : QueryNode :=
  match node with
  | .binaryOp .AND l r =>
    match simplifyBooleans l, simplifyBooleans r with
    | .constBool true, r' => r'
    | .constBool false, _ => .constBool false
    | l', .constBool true => l'
    | _, .constBool false => .constBool false
    | l', r' => .binaryOp .AND l' r'
  | .binaryOp .OR l r =>
    match simplifyBooleans l, simplifyBooleans r with
    | .constBool true, _ => .constBool true
    | .constBool false, r' => r'
    | _, .constBool true => .constBool true
    | l', .constBool false => l'
    | l', r' => .binaryOp .OR l' r'
  | .unaryOp .NOT v =>
    match simplifyBooleans v with
    | .constBool b => .constBool (!b)
    | v' => .unaryOp .NOT v'
  | n => n

/-- Modelled from the spec (§4.D.3): `not` from
`schema-generation/filter-input-types/constants` (not part of the provided
sources) negates a condition node. -/
def notNode (node : QueryNode) : QueryNode :=
  .unaryOp .NOT node

/-- Modelled from the spec (§4.A): `extractVariableAssignments` from
`query-tree/utils` (not part of the provided sources) walks from the root
along direct value edges and lifts every `VariableAssignment` encountered,
replacing it with its result node.  Only the chain through result nodes is
needed by the provided sources. -/
def extractVariableAssignments (node : QueryNode) : QueryNode × List (QVarNode × QueryNode) :=
  match node with
  | .variableAssignment v valueNode resultNode =>
    let (n, rest) := extractVariableAssignments resultNode
    (n, (v, valueNode) :: rest)
  | n => (n, [])

/-- The field chain walk of `getQuantifierFilterUsingArrayExpansion` (the
do-while loop): the condition's lhs must be a chain of field accesses ending at
the item variable; the collected fields are innermost-first. -/
def collectFieldChain (itemVariable : QVarNode) (node : QueryNode) : Option (List FieldT) :=
  match node with
  | .field objectNode f _ =>
    match objectNode with
    | .variable v => if v == itemVariable then some [f] else none
    | .field _ _ _ =>
      match collectFieldChain itemVariable objectNode with
      | some fields => some (fields ++ [f])
      | none => none
    | _ => none
  | _ => none

/-- The LIMIT clause of the `TransformListQueryNode` processor (lines 402-413
of the source). -/
def limitClauseFor (skip : Nat) (maxCount : Option Nat) : AQLFragment :=
  match maxCount with
  | some n =>
    if skip == 0 then
      [.code "LIMIT ", .boundValue (.vint n)]
    else
      [.code "LIMIT ", .boundValue (.vint skip), .code ", ", .boundValue (.vint n)]
  | none =>
    if skip > 0 then
      [.code "LIMIT ", .boundValue (.vint skip), .code ", ", .boundValue (.vint 9007199254740991)]
    else
      []

/-- Modelled from the spec (§4.D.1 step 7): the global `aqlConfig` of the
fragment builder module (not part of the provided sources); the experimental
projection indirection is disabled by default. -/
structure AQLOptimizationConfig where
  enableExperimentalProjectionIndirection : Bool := false
  experimentalProjectionIndirectionTypeNames : Option (List String) := none

/-- The aql configuration record. -/
structure AQLConfig where
  optimizationConfig : AQLOptimizationConfig := {}

/-- The default configuration used by the generator. -/
def aqlConfig : AQLConfig := {}

/-- The type of the recursive lowering function, used to parameterize the
helper functions of the generator that recurse back into `processNode`. -/
def NodeProc : Type :=
  QueryNode → QueryContext → AccessSets → Except String (AQLFragment × AccessSets)

/-- `getCollectionForType` from the source: emits the collection reference and
records the access. -/
def getCollectionForType (type : RootEntityTypeT) (accessType : AccessType) (st : AccessSets) : AQLFragment × AccessSets :=
  let name := getCollectionNameForRootEntity type
  ([.collection name], st.addCollectionAccess name accessType)

/-- `getCollectionForRelation` from the source: emits the edge collection
reference and records the access. -/
def getCollectionForRelation (relation : RelationT) (accessType : AccessType) (st : AccessSets) : AQLFragment × AccessSets :=
  let name := getCollectionNameForRelation relation
  ([.collection name], st.addCollectionAccess name accessType)

/-- `getFullIDFromKeyFragment` from the source. -/
def getFullIDFromKeyFragment (keyFragment : AQLFragment) (rootEntityType : RootEntityTypeT) : AQLFragment :=
  [.code "CONCAT(", .boundValue (.vstr (getCollectionNameForRootEntity rootEntityType ++ "/")), .code ", "]
    ++ keyFragment ++ [.code ")"]

/-- Sequential effectful `map` over a list, as performed by `array.map` in the
source when each element's fragment computation reads and updates the shared
collection sets. -/
def mapFragsCore {α : Type} (f : α → AccessSets → Except String (AQLFragment × AccessSets)) : List α → AccessSets → Except String (List AQLFragment × AccessSets)
  | [], st => .ok ([], st)
  | x :: xs, st =>
    match f x st with
    | .error e => .error e
    | .ok (fr, st1) =>
      match mapFragsCore f xs st1 with
      | .error e => .error e
      | .ok (frs, st2) => .ok (fr :: frs, st2)

/-- `getFullIDFromKeyNode` from the source, parameterized by the recursive
lowering function: literal string keys are joined with the collection name in
the compiler, `RootEntityID` nodes access `._id`, everything else falls back
to a `CONCAT`. -/
def getFullIDFromKeyNodeCore (pn : NodeProc) (node : QueryNode) (rootEntityType : RootEntityTypeT) (context : QueryContext) (st : AccessSets) : Except String (AQLFragment × AccessSets) :=
  match node with
  | .literal (.vstr s) =>
    .ok ([.boundValue (.vstr (getCollectionNameForRootEntity rootEntityType ++ "/" ++ s))], st)
  | .rootEntityID objectNode =>
    match pn objectNode context st with
    | .error e => .error e
    | .ok (o, st1) => .ok (o ++ [.code "._id"], st1)
  | _ =>
    match pn node context st with
    | .error e => .error e
    | .ok (k, st1) => .ok (getFullIDFromKeyFragment k rootEntityType, st1)

/-- True for a literal node holding an array of strings (the
`Array.isArray(...) && every(v => typeof v === 'string')` test of the
source); returns the strings. -/
def literalStringListOf (node : QueryNode) : Option (List String) :=
  match node with
  | .literal (.vlist vs) =>
    vs.foldr (fun v acc =>
      match v, acc with
      | .vstr s, some ss => some (s :: ss)
      | _, _ => none) (some [])
  | _ => none

/-- `getFullIDsFromKeysNode` from the source, parameterized by the recursive
lowering function. -/
def getFullIDsFromKeysNodeCore (pn : NodeProc) (idsNode : QueryNode) (rootEntityType : RootEntityTypeT) (context : QueryContext) (st : AccessSets) : Except String (AQLFragment × AccessSets) :=
  match idsNode with
  | .listNode itemNodes =>
    match mapFragsCore (fun n s => getFullIDFromKeyNodeCore pn n rootEntityType context s) itemNodes st with
    | .error e => .error e
    | .ok (idFragments, st1) =>
      .ok ([.code "["] ++ aqlJoin idFragments [.code ", "] ++ [.code "]"], st1)
  | _ =>
    match literalStringListOf idsNode with
    | some ids =>
      .ok ([.boundValue (.vlist (ids.map (fun v => .vstr (getCollectionNameForRootEntity rootEntityType ++ "/" ++ v))))], st)
    | none =>
      match pn idsNode context st with
      | .error e => .error e
      | .ok (l, st1) =>
        .ok ([.code "(FOR ", .variable "id", .code " IN "] ++ l ++ [.code " RETURN "]
          ++ getFullIDFromKeyFragment [.variable "id"] rootEntityType ++ [.code ")"], st1)

/-- `formatEdge` from the source, parameterized by the recursive lowering
function. -/
def formatEdgeCore (pn : NodeProc) (relation : RelationT) (edge : Option QueryNode × Option QueryNode) (context : QueryContext) (st : AccessSets) : Except String (AQLFragment × AccessSets) :=
  match (match edge.1 with
         | none => .ok ([], st)
         | some fromIDNode =>
           match getFullIDFromKeyNodeCore pn fromIDNode relation.fromType context st with
           | .error e => .error e
           | .ok (f, st1) => .ok ([[AQLToken.code "_from: "] ++ f], st1) :
           Except String (List AQLFragment × AccessSets)) with
  | .error e => .error e
  | .ok (conditions1, st1) =>
    match edge.2 with
    | none => .ok ([.code "\x7b"] ++ aqlJoin conditions1 [.code ", "] ++ [.code "\x7d"], st1)
    | some toIDNode =>
      match getFullIDFromKeyNodeCore pn toIDNode relation.toType context st1 with
      | .error e => .error e
      | .ok (f, st2) =>
        .ok ([.code "\x7b"] ++ aqlJoin (conditions1 ++ [[AQLToken.code "_to: "] ++ f]) [.code ", "] ++ [.code "\x7d"], st2)

/-- The hoisting loop of the `TransformListQueryNode` processor (lines 418-426
of the source): each extracted assignment introduces its variable into the
projection context and contributes a `LET` line. -/
def hoistLetsCore (pn : NodeProc) : List (QVarNode × QueryNode) → QueryContext → AccessSets → Except String (List AQLFragment × QueryContext × AccessSets)
  | [], context, st => .ok ([], context, st)
  | (v, valueNode) :: rest, context, st =>
    match context.introduceVariable v with
    | .error e => .error e
    | .ok context1 =>
      match context1.getVariableFrag v with
      | .error e => .error e
      | .ok tmpVar =>
        match pn valueNode context1 st with
        | .error e => .error e
        | .ok (valFrag, st1) =>
          match hoistLetsCore pn rest context1 st1 with
          | .error e => .error e
          | .ok (frags, context2, st2) =>
            .ok (([.code "LET "] ++ tmpVar ++ [.code " = "] ++ valFrag) :: frags, context2, st2)

/-- The safe-list unwrap of `getQuantifierFilterUsingArrayExpansion` (the
source reassigns `listNode = listNode.sourceNode` when it is a
`SafeListQueryNode`). -/
def unwrapSafeList : QueryNode → QueryNode
  | .safeList sourceNode => sourceNode
  | other => other

/-- The operator check of `getQuantifierFilterUsingArrayExpansion` (the
`switch` over the condition's operator): `EQUAL` always works, `LIKE` only for
a literal string pattern that is entirely literal without case-specific
characters. -/
def quantifierOperatorOk (operator : BinaryOperator) (condRhs : QueryNode) : Bool :=
  match operator with
  | .EQUAL => true
  | .LIKE =>
    -- only an equals search without case-specific characters can be optimized
    match condRhs with
    | .literal (.vstr likePattern) =>
      (analyzeLikePatternPrefix likePattern).isLiteralPattern && isStringCaseInsensitive likePattern
    | _ => false
  | _ => false

/-- `getQuantifierFilterUsingArrayExpansion` from the source, parameterized by
the recursive lowering function: the `some`-only fast path using the array
expansion operator.  Returns `none` when the fast path does not apply. -/
def quantifierFastCore (pn : NodeProc) (quantifier : Quantifier) (conditionNode listNode : QueryNode) (itemVariable : QVarNode) (context : QueryContext) (st : AccessSets) : Except String (Option (AQLFragment × AccessSets)) :=
  match quantifier with
  | .qsome =>
    -- only possible on lists that are field accesses, but "safe lists" are ok
    -- because the IN operator implicitly ignores NULL values
    let listNode2 := unwrapSafeList listNode
    match listNode2 with
    | .field _ _ _ =>
      match conditionNode with
      | .binaryOp operator condLhs condRhs =>
        if quantifierOperatorOk operator condRhs then
          match collectFieldChain itemVariable condLhs with
          | none => .ok none
          | some fields =>
            match pn condRhs context st with
            | .error e => .error e
            | .ok (valueFrag, st1) =>
              match pn listNode2 context st1 with
              | .error e => .error e
              | .ok (listFrag, st2) =>
                .ok (some (valueFrag ++ [.code " IN "] ++ listFrag ++ [.code "[*]"]
                  ++ (fields.map getFieldAccessFragment).flatten, st2))
        else
          .ok none
      | _ => .ok none
    | _ => .ok none
  | _ => .ok none

/-- The lowering pass: `processNode` dispatching on the node class, fused with
the registered processors of the source.  The first argument is fuel
(decremented on every recursive call); the collection-access sets are threaded
through in the evaluation order of the source. -/
def processNode : Nat → QueryNode → QueryContext → AccessSets → Except String (AQLFragment × AccessSets)
  | 0, _, _, _ => .error "out of fuel"
  | fuel + 1, node, context, st =>
    match node with
    | .literal value => .ok ([.boundValue value], st)
    | .nullNode => .ok ([.code "null"], st)
    | .constBool value => .ok (if value then [.code "true"] else [.code "false"], st)
    | .constInt value => .ok ([.code (toString value)], st)
    | .variable v =>
      match context.getVariableFrag v with
      | .error e => .error e
      | .ok f => .ok (f, st)
    | .field objectNode f path =>
      match processNode fuel objectNode context st with
      | .error e => .error e
      | .ok (object, st1) =>
        .ok (object ++ getFieldPathAccessFragment path ++ getFieldAccessFragment f, st1)
    | .fieldPath _ _ =>
      -- no processor is registered for FieldPathQueryNode in aql-generator.ts
      .error "Unsupported query type: FieldPathQueryNode"
    | .rootEntityID objectNode =>
      match processNode fuel objectNode context st with
      | .error e => .error e
      | .ok (o, st1) => .ok (o ++ [.code "._key"], st1)
    | .safeList sourceNode =>
      -- the source reduces to Conditional(TypeCheck(source, LIST), source, []) and re-dispatches
      processNode fuel (.conditional (.typeCheck sourceNode .LIST) sourceNode (.listNode [])) context st
    | .listNode itemNodes =>
      match itemNodes with
      | [] => .ok ([.code "[]"], st)
      | _ =>
        match mapFragsCore (fun n s => processNode fuel n context s) itemNodes st with
        | .error e => .error e
        | .ok (frags, st1) =>
          .ok (aqlLines [[.code "["], aqlIndent (aqlJoin frags [.code ",\n"]), [.code "]"]], st1)
    | .binaryOp operator lhsNode rhsNode =>
      match processNode fuel lhsNode context st with
      | .error e => .error e
      | .ok (lhs, st1) =>
        match processNode fuel rhsNode context st1 with
        | .error e => .error e
        | .ok (rhs, st2) =>
          match getAQLOperator operator with
          | some op => .ok ([.code "("] ++ lhs ++ [.code " "] ++ op ++ [.code " "] ++ rhs ++ [.code ")"], st2)
          | none =>
            match operator with
            | .CONTAINS =>
              .ok ([.code "("] ++ lhs ++ [.code " LIKE CONCAT(\"%\", "] ++ rhs ++ [.code ", \"%\"))"], st2)
            | .STARTS_WITH =>
              let slowFrag := [AQLToken.code "(LEFT("] ++ lhs ++ [.code ", LENGTH("] ++ rhs
                ++ [.code ")) == "] ++ rhs ++ [.code ")"]
              match rhsNode with
              | .literal (.vstr s) =>
                -- still need to use the slow frag to get case sensitiveness
                .ok (getFastStartsWithQuery lhs s ++ [.code " && "] ++ slowFrag, st2)
              | _ => .ok (slowFrag, st2)
            | .ENDS_WITH =>
              .ok ([.code "(RIGHT("] ++ lhs ++ [.code ", LENGTH("] ++ rhs ++ [.code ")) == "] ++ rhs ++ [.code ")"], st2)
            | .LIKE =>
              let slowLikeFrag := [AQLToken.code "LIKE("] ++ lhs ++ [.code ", "] ++ rhs ++ [.code ", true)"]
              match rhsNode with
              | .literal (.vstr s) =>
                let a := analyzeLikePatternPrefix s
                if a.isLiteralPattern then
                  .ok (getEqualsIgnoreCaseQuery lhs a.literalPrefix, st2)
                else
                  let fastFrag := getFastStartsWithQuery lhs a.literalPrefix
                  if a.isSimplePrefixPattern then
                    -- the whole LIKE is optimized away into a range select
                    .ok (fastFrag, st2)
                  else
                    -- use the prefix search to narrow down the results
                    .ok ([.code "("] ++ fastFrag ++ [.code " && "] ++ slowLikeFrag ++ [.code ")"], st2)
              | _ => .ok (slowLikeFrag, st2)
            | .APPEND => .ok ([.code "CONCAT("] ++ lhs ++ [.code ", "] ++ rhs ++ [.code ")"], st2)
            | .PREPEND => .ok ([.code "CONCAT("] ++ rhs ++ [.code ", "] ++ lhs ++ [.code ")"], st2)
            | _ => .error "Unsupported binary operator"
    | .unaryOp operator valueNode =>
      match processNode fuel valueNode context st with
      | .error e => .error e
      | .ok (v, st1) =>
        match operator with
        | .NOT => .ok ([.code "!("] ++ v ++ [.code ")"], st1)
        | .JSON_STRINGIFY => .ok ([.code "JSON_STRINGIFY("] ++ v ++ [.code ")"], st1)
    | .conditional condition expr1 expr2 =>
      match processNode fuel condition context st with
      | .error e => .error e
      | .ok (cond, st1) =>
        match processNode fuel expr1 context st1 with
        | .error e => .error e
        | .ok (e1, st2) =>
          match processNode fuel expr2 context st2 with
          | .error e => .error e
          | .ok (e2, st3) =>
            .ok ([.code "("] ++ cond ++ [.code " ? "] ++ e1 ++ [.code " : "] ++ e2 ++ [.code ")"], st3)
    | .typeCheck valueNode type =>
      match processNode fuel valueNode context st with
      | .error e => .error e
      | .ok (value, st1) =>
        match type with
        | .SCALAR =>
          .ok ([.code "(IS_BOOL("] ++ value ++ [.code ") || IS_NUMBER("] ++ value
            ++ [.code ") || IS_STRING("] ++ value ++ [.code "))"], st1)
        | .LIST => .ok ([.code "IS_LIST("] ++ value ++ [.code ")"], st1)
        | .OBJECT => .ok ([.code "IS_OBJECT("] ++ value ++ [.code ")"], st1)
        | .NULL => .ok ([.code "IS_NULL("] ++ value ++ [.code ")"], st1)
    | .count listNode =>
      match listNode with
      | .field _ _ _ =>
        match processNode fuel listNode context st with
        | .error e => .error e
        | .ok (l, st1) => .ok ([.code "LENGTH("] ++ l ++ [.code ")"], st1)
      | .entities _ =>
        match processNode fuel listNode context st with
        | .error e => .error e
        | .ok (l, st1) => .ok ([.code "LENGTH("] ++ l ++ [.code ")"], st1)
      | _ =>
        -- in the general case the COLLECT WITH COUNT syntax is used
        match processNode fuel listNode context st with
        | .error e => .error e
        | .ok (l, st1) =>
          .ok (parenthesizeObject
            [[.code "FOR ", .variable "item"],
             [.code "IN "] ++ l,
             [.code "COLLECT WITH COUNT INTO ", .variable "count"],
             [.code "return ", .variable "count"]], st1)
    | .entities rootEntityType =>
      let (coll, st1) := getCollectionForType rootEntityType .READ st
      .ok (coll, st1)
    | .followEdge relationSide sourceEntityNode =>
      -- wrapped in a subquery filtering dangling edges (getSimpleFollowEdgeFragment inlined)
      match processNode fuel sourceEntityNode context st with
      | .error e => .error e
      | .ok (src, st1) =>
        let dir := if relationSide.isFromSide then [AQLToken.code "OUTBOUND"] else [AQLToken.code "INBOUND"]
        let (coll, st2) := getCollectionForRelation relationSide.relation .READ st1
        .ok (parenthesizeList
          [[.code "FOR ", .variable "node"],
           [.code "IN "] ++ dir ++ [.code "  "] ++ src ++ [.code " "] ++ coll,
           [.code "FILTER ", .variable "node", .code " != null"],
           [.code "RETURN ", .variable "node"]], st2)
    | .variableAssignment variableNode variableValueNode resultNode =>
      match context.introduceVariable variableNode with
      | .error e => .error e
      | .ok newContext =>
        match newContext.getVariableFrag variableNode with
        | .error e => .error e
        | .ok tmpVar =>
          match processNode fuel variableValueNode newContext st with
          | .error e => .error e
          | .ok (v, st1) =>
            match processNode fuel resultNode newContext st1 with
            | .error e => .error e
            | .ok (r, st2) =>
              .ok (parenthesizeObject
                [[.code "LET "] ++ tmpVar ++ [.code " = "] ++ v,
                 [.code "RETURN "] ++ r], st2)
    | .operatorWithLanguage operator lhsNode rhsNode quickSearchLanguage =>
      match processNode fuel lhsNode context st with
      | .error e => .error e
      | .ok (lhs, st1) =>
        match processNode fuel rhsNode context st1 with
        | .error e => .error e
        | .ok (rhs, st2) =>
          let analyzer := match quickSearchLanguage with
            | some lang => "text_" ++ lang.toLower
            | none => IDENTITY_ANALYZER
          match operator with
          | .QUICKSEARCH_STARTS_WITH =>
            .ok ([.code "STARTS_WITH("] ++ lhs ++ [.code ","] ++ rhs ++ [.code ")"], st2)
          | .QUICKSEARCH_CONTAINS_ANY_WORD =>
            .ok ([.code "ANALYZER( "] ++ lhs ++ [.code " IN TOKENS("] ++ rhs
              ++ [.code ", ", .boundValue (.vstr analyzer), .code "),", .boundValue (.vstr analyzer), .code ")"], st2)
          | .QUICKSEARCH_CONTAINS_PREFIX =>
            -- note the unbalanced extra closing parenthesis present in the source template
            .ok ([.code "ANALYZER( STARTS_WITH( "] ++ lhs ++ [.code ", TOKENS("] ++ rhs
              ++ [.code ")[0]), ", .boundValue (.vstr analyzer), .code "))"], st2)
          | .QUICKSEARCH_CONTAINS_PHRASE =>
            .ok ([.code "ANALYZER( PHRASE( "] ++ lhs ++ [.code ", "] ++ rhs
              ++ [.code "), ", .boundValue (.vstr analyzer), .code ")"], st2)
    | .transformList listNode itemVariable filterNode orderBy skip maxCount innerNode =>
      match context.introduceVariable itemVariable with
      | .error e => .error e
      | .ok itemContext =>
        match itemContext.getVariableFrag itemVariable with
        | .error e => .error e
        | .ok itemVar =>
          let useIndirectedProjection :=
            aqlConfig.optimizationConfig.enableExperimentalProjectionIndirection
            && (match listNode with
                | .entities t =>
                  (match aqlConfig.optimizationConfig.experimentalProjectionIndirectionTypeNames with
                   | none => true
                   | some names => names.contains t.name)
                | _ => false)
            && (match innerNode with
                | .variable v => !(v == itemVariable)
                | _ => true)
            && maxCount.isSome
          match (if useIndirectedProjection then
                   match context.introduceVariable itemVariable with
                   | .error e => .error e
                   | .ok c =>
                     match c.getVariableFrag itemVariable with
                     | .error e => .error e
                     | .ok v => .ok (c, v)
                 else .ok (itemContext, itemVar) : Except String (QueryContext × AQLFragment)) with
          | .error e => .error e
          | .ok (itemProjectionContext0, itemProjectionVar) =>
            match (match listNode with
                   | .followEdge relationSide sourceEntityNode =>
                     -- getSimpleFollowEdgeFragment inlined, plus the dangling-edge filter
                     match processNode fuel sourceEntityNode context st with
                     | .error e => .error e
                     | .ok (src, stx) =>
                       let dir := if relationSide.isFromSide then [AQLToken.code "OUTBOUND"] else [AQLToken.code "INBOUND"]
                       let (coll, sty) := getCollectionForRelation relationSide.relation .READ stx
                       .ok (dir ++ [.code "  "] ++ src ++ [.code " "] ++ coll,
                            [AQLToken.code "FILTER "] ++ itemVar ++ [.code " != null"], sty)
                   | other =>
                     match processNode fuel other context st with
                     | .error e => .error e
                     | .ok (l, stx) => .ok (l, ([] : AQLFragment), stx)
                   : Except String (AQLFragment × AQLFragment × AccessSets)) with
            | .error e => .error e
            | .ok (list, filterDanglingEdges, st1) =>
              let filter := simplifyBooleans filterNode
              let limitClause := limitClauseFor skip maxCount
              -- move LET statements up (hoisting of the inner variable assignments)
              let ex := extractVariableAssignments innerNode
              match hoistLetsCore (fun n c s => processNode fuel n c s) ex.2 itemProjectionContext0 st1 with
              | .error e => .error e
              | .ok (variableAssignments, itemProjectionContext, st2) =>
                match (match filter with
                       | .constBool true => .ok ([], st2)
                       | f =>
                         match processNode fuel f itemContext st2 with
                         | .error e => .error e
                         | .ok (ff, stx) => .ok ([AQLToken.code "FILTER "] ++ ff, stx)
                       : Except String (AQLFragment × AccessSets)) with
                | .error e => .error e
                | .ok (filterFrag, st3) =>
                  -- generateSortAQL inlined
                  match (if orderBy.isEmpty then .ok ([], st3)
                         else
                           match mapFragsCore (fun cl s =>
                               match processNode fuel cl.1 itemContext s with
                               | .error e => .error e
                               | .ok (cf, s1) =>
                                 .ok ([AQLToken.code "("] ++ cf ++ [.code ") "]
                                   ++ (match cl.2 with
                                       | .DESCENDING => [AQLToken.code " DESC"]
                                       | .ASCENDING => []), s1)) orderBy st3 with
                           | .error e => .error e
                           | .ok (clauses, stx) => .ok ([AQLToken.code "SORT "] ++ aqlJoin clauses [.code ", "], stx)
                         : Except String (AQLFragment × AccessSets)) with
                  | .error e => .error e
                  | .ok (sortFrag, st4) =>
                    match processNode fuel ex.1 itemProjectionContext st4 with
                    | .error e => .error e
                    | .ok (innerFrag, st5) =>
                      .ok (parenthesizeList
                        ([[.code "FOR "] ++ itemVar,
                          [.code "IN "] ++ list,
                          filterFrag,
                          filterDanglingEdges,
                          sortFrag,
                          limitClause,
                          if useIndirectedProjection then
                            [.code "LET "] ++ itemProjectionVar ++ [.code " = DOCUMENT("] ++ itemVar ++ [.code "._id)"]
                          else []]
                         ++ variableAssignments
                         ++ [[.code "RETURN "] ++ innerFrag]), st5)
    | .quantifierFilter quantifier listNode itemVariable conditionNode =>
      let conditionNode2 := simplifyBooleans conditionNode
      match quantifierFastCore (fun n c s => processNode fuel n c s) quantifier conditionNode2 listNode itemVariable context st with
      | .error e => .error e
      | .ok (some fastFragment) => .ok fastFragment
      | .ok none =>
        -- reduce 'every' to 'none' so that count-based evaluation is possible
        let qc : Quantifier × QueryNode :=
          match quantifier with
          | .qevery => (.qnone, notNode conditionNode2)
          | q => (q, conditionNode2)
        -- the filtered TransformList uses the defaults of the query-tree
        -- constructor: inner node = item variable, no order, no skip, no limit
        processNode fuel
          (.binaryOp (match qc.1 with | .qnone => .EQUAL | _ => .GREATER_THAN)
            (.count (.transformList listNode itemVariable qc.2 [] 0 none (.variable itemVariable)))
            (.literal (.vint 0))) context st
    | .addEdges relation edges =>
      match mapFragsCore (fun e s => formatEdgeCore (fun n c s1 => processNode fuel n c s1) relation e context s) edges st with
      | .error e => .error e
      | .ok (edgeFrags, st1) =>
        let (coll, st2) := getCollectionForRelation relation .WRITE st1
        .ok (parenthesizeList
          [[.code "FOR ", .variable "edge"],
           [.code "IN [ "] ++ aqlJoin edgeFrags [.code ", "] ++ [.code " ]"],
           [.code "UPSERT \x7b _from: ", .variable "edge", .code "._from, _to: ", .variable "edge", .code "._to \x7d"],
           [.code "INSERT ", .variable "edge"],
           [.code "UPDATE \x7b\x7d"],
           [.code "IN "] ++ coll], st2)
    | .removeEdges relation fromIDsNode toIDsNode =>
      let edgeFilter : AQLFragment :=
        match fromIDsNode, toIDsNode with
        | some _, some _ =>
          [.code "FILTER ", .variable "edge", .code "._from == ", .variable "from",
           .code " && ", .variable "edge", .code "._to == ", .variable "to"]
        | some _, none => [.code "FILTER ", .variable "edge", .code "._from == ", .variable "from"]
        | none, some _ => [.code "FILTER ", .variable "edge", .code "._to == ", .variable "to"]
        | none, none => []
      match (match fromIDsNode with
             | none => .ok ([], st)
             | some n =>
               match getFullIDsFromKeysNodeCore (fun n1 c s => processNode fuel n1 c s) n relation.fromType context st with
               | .error e => .error e
               | .ok (f, stx) => .ok ([AQLToken.code "FOR ", .variable "from", .code " IN "] ++ f, stx)
             : Except String (AQLFragment × AccessSets)) with
      | .error e => .error e
      | .ok (fromLine, st1) =>
        match (match toIDsNode with
               | none => .ok ([], st1)
               | some n =>
                 match getFullIDsFromKeysNodeCore (fun n1 c s => processNode fuel n1 c s) n relation.toType context st1 with
                 | .error e => .error e
                 | .ok (f, stx) => .ok ([AQLToken.code "FOR ", .variable "to", .code " IN "] ++ f, stx)
               : Except String (AQLFragment × AccessSets)) with
        | .error e => .error e
        | .ok (toLine, st2) =>
          let (collRead, st3) := getCollectionForRelation relation .READ st2
          let (collWrite, st4) := getCollectionForRelation relation .WRITE st3
          .ok (parenthesizeList
            [fromLine,
             toLine,
             [.code "FOR ", .variable "edge", .code " IN "] ++ collRead,
             edgeFilter,
             [.code "REMOVE ", .variable "edge", .code " IN "] ++ collWrite], st4)
    | .setEdge relation existingEdge newEdge =>
      match formatEdgeCore (fun n c s => processNode fuel n c s) relation existingEdge context st with
      | .error e => .error e
      | .ok (f1, st1) =>
        match formatEdgeCore (fun n c s => processNode fuel n c s) relation newEdge context st1 with
        | .error e => .error e
        | .ok (f2, st2) =>
          match formatEdgeCore (fun n c s => processNode fuel n c s) relation newEdge context st2 with
          | .error e => .error e
          | .ok (f3, st3) =>
            let (coll, st4) := getCollectionForRelation relation .WRITE st3
            .ok (parenthesizeList
              [[.code "UPSERT "] ++ f1,
               [.code "INSERT "] ++ f2,
               [.code "UPDATE "] ++ f3,
               [.code "IN "] ++ coll], st4)

/-- `getQuantifierFilterUsingArrayExpansion` from the source at a given fuel:
the named entry point used by the theorems (the body is `quantifierFastCore`
applied to the lowering pass, exactly as inside `processNode`). -/
def getQuantifierFilterUsingArrayExpansion (fuel : Nat) (quantifier : Quantifier) (conditionNode listNode : QueryNode) (itemVariable : QVarNode) (context : QueryContext) (st : AccessSets) : Except String (Option (AQLFragment × AccessSets)) :=
  quantifierFastCore (fun n c s => processNode fuel n c s) quantifier conditionNode listNode itemVariable context st

/-- `ModelLocalizationProvider.isExistingAndAdd` from the i18n validator:
returns whether the search string is already present (`indexOf >= 0`) and in
either case appends it.  The mutated array is returned as the second
component. -/
def isExistingAndAdd (search : String) (array : List String) : Bool × List String :=
  if array.contains search then
    (true, array ++ [search])
  else
    (false, array ++ [search])

/-- A scalar type of the model (`ScalarType`); only the name is relevant
here. -/
structure ScalarType where
  name : String
deriving DecidableEq

/-- Modelled from the spec: `getScalarFilterValueNode` from
`schema-generation/filter-input-types/filter-fields` (not part of the provided
sources).  The spec describes no transformation of the field value for filter
comparisons, so the value node is used as-is. -/
def getScalarFilterValueNode (valueNode : QueryNode) (_fieldType : ScalarType) : QueryNode :=
  valueNode

/-- `getTTLFilter` from `src/project/time-to-live.ts`: the conjunction of
`dateField < deleteFrom` and `dateField > null`. -/
def getTTLFilter (fieldType : ScalarType) (path : List FieldT) (deleteFrom : String) (listItemVar : QVarNode) : QueryNode :=
  let filterNode : QueryNode :=
    .binaryOp .LESS_THAN
      (getScalarFilterValueNode (.fieldPath (.variable listItemVar) path) fieldType)
      (.literal (.vstr deleteFrom))
  let nullFilterNode : QueryNode :=
    .binaryOp .GREATER_THAN
      (getScalarFilterValueNode (.fieldPath (.variable listItemVar) path) fieldType)
      .nullNode
  .binaryOp .AND filterNode nullFilterNode

/-- The type rank of ArangoDB's documented comparison order:
null < bool < number < string < list. -/
def aqlTypeRank : JSValue → Nat
  | .vnull => 0
  | .vbool _ => 1
  | .vint _ => 2
  | .vstr _ => 3
  | .vlist _ => 4

/-- Models the documented ArangoDB total comparison order on the values needed
by the TTL filter: values of different types compare by type rank; within a
type, booleans, integers and strings compare naturally (`null < null` is
false).  List items are not compared element-wise because no claim depends on
that. -/
def aqlValueLt (a b : JSValue) : Bool :=
  if aqlTypeRank a != aqlTypeRank b then
    aqlTypeRank a < aqlTypeRank b
  else
    match a, b with
    | .vbool x, .vbool y => !x && y
    | .vint x, .vint y => x < y
    | .vstr x, .vstr y => x < y
    | _, _ => false

/-- Evaluates the emitted TTL filter on one entity, given the entity's value at
each field path (ArangoDB evaluation semantics of the comparison and `AND`
operators restricted to the node shapes `getTTLFilter` produces). -/
def evalTTLFilterNode (pathValue : List FieldT → JSValue) : QueryNode → Option JSValue
  | .literal v => some v
  | .nullNode => some .vnull
  | .fieldPath objectNode path =>
    match objectNode with
    | .variable _ => some (pathValue path)
    | _ => none
  | .binaryOp op a b =>
    match evalTTLFilterNode pathValue a, evalTTLFilterNode pathValue b with
    | some va, some vb =>
      match op with
      | .AND =>
        match va, vb with
        | .vbool x, .vbool y => some (.vbool (x && y))
        | _, _ => none
      | .LESS_THAN => some (.vbool (aqlValueLt va vb))
      | .GREATER_THAN => some (.vbool (aqlValueLt vb va))
      | _ => none
    | _, _ => none
  | _ => none

/-! ### Helper lemmas -/

/-- Appending distributes over the code-mention test. -/
theorem fragMentionsCode_append (needle : String) (a b : AQLFragment) :
    fragMentionsCode needle (a ++ b) = (fragMentionsCode needle a || fragMentionsCode needle b) := by
  simp [fragMentionsCode, List.any_append]

/-- When a pattern is entirely literal, its literal prefix is the whole
pattern. -/
theorem literalPrefix_of_isLiteralPattern (s : String)
    (h : (analyzeLikePatternPrefix s).isLiteralPattern = true) :
    (analyzeLikePatternPrefix s).literalPrefix = s := by
  simp only [analyzeLikePatternPrefix, List.isEmpty_iff] at h ⊢
  have := @List.takeWhile_append_dropWhile Char (fun c => !isLikeWildcard c) s.toList
  rw [h, List.append_nil] at this
  rw [this]
  rfl

/-! ### C8: the i18n duplicate tracker -/

/-- Claim C8 (counterexample): on a fresh array, `isExistingAndAdd` returns
`false` for the first insertion (the claim asserts it returns `true`), while
still appending the string. -/
theorem isExistingAndAdd_first_insertion_returns_false :
    (isExistingAndAdd "a" []).1 = false ∧ (isExistingAndAdd "a" []).2 = ["a"] :=
  ⟨rfl, rfl⟩

/-- Claim C8 (amended): `isExistingAndAdd` returns `false` on the first
insertion of a search string and `true` on every subsequent call with the same
string — matching, not inverting, what its name suggests — and in all cases
appends the string to the array. -/
theorem isExistingAndAdd_spec (search : String) (array : List String) :
    (isExistingAndAdd search array).1 = array.contains search
    ∧ (isExistingAndAdd search array).2 = array ++ [search]
    ∧ (isExistingAndAdd search (isExistingAndAdd search array).2).1 = true := by
  unfold isExistingAndAdd
  by_cases h : search ∈ array <;> simp [h]

/-! ### C9: the TTL filter -/

/-- Claim C9: `getTTLFilter` produces the conjunction of
`dateField < deleteFrom` and `dateField > null`; consequently an entity whose
TTL date field is `null` never satisfies the filter (it evaluates to `false`),
so the TTL cleanup query and the TTL info counts, whose filter node this is,
never delete or count such an entity. -/
theorem getTTLFilter_spec (fieldType : ScalarType) (path : List FieldT)
    (deleteFrom : String) (listItemVar : QVarNode) (pathValue : List FieldT → JSValue) :
    getTTLFilter fieldType path deleteFrom listItemVar
      = .binaryOp .AND
          (.binaryOp .LESS_THAN (.fieldPath (.variable listItemVar) path) (.literal (.vstr deleteFrom)))
          (.binaryOp .GREATER_THAN (.fieldPath (.variable listItemVar) path) .nullNode)
    ∧ (pathValue path = .vnull →
        evalTTLFilterNode pathValue (getTTLFilter fieldType path deleteFrom listItemVar)
          = some (.vbool false)) := by
  refine ⟨rfl, fun h => ?_⟩
  simp [getTTLFilter, getScalarFilterValueNode, evalTTLFilterNode, h, aqlValueLt, aqlTypeRank]

/-- Witness for C9 at a concrete input: an entity whose `expiresAt` field is
`null` does not satisfy the TTL filter. -/
theorem getTTLFilter_spec_witness :
    evalTTLFilterNode (fun _ => .vnull)
      (getTTLFilter ⟨"DateTime"⟩ [⟨"expiresAt"⟩] "2020-01-01T00:00:00Z" ⟨0, "delivery"⟩)
      = some (.vbool false) :=
  (getTTLFilter_spec ⟨"DateTime"⟩ [⟨"expiresAt"⟩] "2020-01-01T00:00:00Z" ⟨0, "delivery"⟩
    (fun _ => .vnull)).2 rfl

/-! ### C6: variable introduction and resolution -/

/-- Claim C6: `getVariable` fails exactly when the variable has no binding in
the context, `introduceVariable` fails exactly when the variable identity is
already bound, and in the non-failing cases introduction extends the map by
exactly the one new binding while `getVariable` returns the fragment variable
bound to the node. -/
theorem queryContext_variable_spec (c : QueryContext) (v : QVarNode) :
    ((∃ e, c.getVariableFrag v = .error e) ↔ c.lookupVar v = none)
    ∧ (∀ a, c.lookupVar v = some a → c.getVariableFrag v = .ok [tokenOfAQLVar a])
    ∧ ((∃ e, c.introduceVariable v = .error e) ↔ (c.lookupVar v).isSome = true)
    ∧ (c.lookupVar v = none →
        c.introduceVariable v
          = .ok { variableMap := c.variableMap ++ [(v, .transient v.label)] }) := by
  unfold QueryContext.getVariableFrag QueryContext.introduceVariable
    QueryContext.newNestedContextWithNewVariable
  cases h : c.lookupVar v <;> simp [h]

/-- Witness for C6 at a concrete input: in the empty context, introducing a
variable succeeds and extends the map by exactly one binding. -/
theorem queryContext_variable_spec_witness :
    QueryContext.introduceVariable ⟨[]⟩ ⟨0, "delivery"⟩
      = .ok { variableMap := [(⟨0, "delivery"⟩, .transient "delivery")] } :=
  (queryContext_variable_spec ⟨[]⟩ ⟨0, "delivery"⟩).2.2.2 rfl

/-! ### C5: pre-execution contexts -/

/-- Looking a key up in the query-result-filtered binding list (when the keys
are unique, as the `Map` of the source guarantees) finds exactly the
query-result bindings of the unfiltered list. -/
theorem find?_map_filter_queryResult (l : List (QVarNode × AQLVar))
    (hn : (l.map Prod.fst).Nodup) (v : QVarNode) (a : AQLVar) :
    ((l.filter (fun p => p.2.isQueryResult)).find? (fun p => p.1 == v)).map (·.2) = some a
      ↔ ((l.find? (fun p => p.1 == v)).map (·.2) = some a ∧ a.isQueryResult = true) := by
  induction l with
  | nil => simp
  | cons hd t ih =>
    rw [List.map_cons, List.nodup_cons] at hn
    obtain ⟨hk, hnt⟩ := hn
    by_cases hv : (hd.1 == v) = true
    · have hveq : hd.1 = v := by simpa using hv
      by_cases hb : hd.2.isQueryResult = true
      · simp only [List.filter_cons]
        rw [if_pos hb]
        simp only [List.find?_cons, hv, Option.map_some']
        constructor
        · intro h
          refine ⟨h, ?_⟩
          cases h
          exact hb
        · exact fun h => h.1
      · simp only [List.filter_cons]
        rw [if_neg hb]
        simp only [List.find?_cons, hv, Option.map_some']
        have hnone : ((t.filter (fun p => p.2.isQueryResult)).find? (fun p => p.1 == v)) = none := by
          rw [List.find?_eq_none]
          intro x hx hxv
          have hxt : x ∈ t := List.mem_of_mem_filter hx
          have hmem : x.1 ∈ t.map Prod.fst := List.mem_map_of_mem Prod.fst hxt
          have hx1 : x.1 = v := by simpa using hxv
          rw [hx1, ← hveq] at hmem
          exact hk hmem
        rw [hnone]
        simp only [Option.map_none']
        constructor
        · intro h
          cases h
        · rintro ⟨h, hq⟩
          cases h
          exact absurd hq hb
    · have hv' : (hd.1 == v) = false := by simpa using hv
      by_cases hb : hd.2.isQueryResult = true
      · simp only [List.filter_cons]
        rw [if_pos hb]
        simp only [List.find?_cons, hv']
        exact ih hnt
      · simp only [List.filter_cons]
        rw [if_neg hb]
        simp only [List.find?_cons, hv']
        exact ih hnt

/-- Claim C5: the context used to compile a pre-execution query contains
exactly the query-result bindings of the parent context and none of its
transient bindings, so a transient variable of an outer scope is never
resolvable inside a pre-execution query.  (The read- and write-collection sets
are threaded through the lowering pass as shared state, which models the
reference sharing of `newPreExecContext` structurally.) -/
theorem newPreExecContext_spec (c : QueryContext)
    (hn : (c.variableMap.map Prod.fst).Nodup) :
    (c.newPreExecContext.variableMap = c.variableMap.filter (fun p => p.2.isQueryResult))
    ∧ (∀ v a, c.newPreExecContext.lookupVar v = some a
        ↔ (c.lookupVar v = some a ∧ a.isQueryResult = true))
    ∧ (∀ v lbl, c.lookupVar v = some (.transient lbl) →
        ∃ e, c.newPreExecContext.getVariableFrag v = .error e) := by
  refine ⟨rfl, fun v a => ?_, fun v lbl hv => ?_⟩
  · exact find?_map_filter_queryResult c.variableMap hn v a
  · cases h2 : c.newPreExecContext.lookupVar v with
    | none =>
      exact ⟨"Variable " ++ v.label ++ " is used but not introduced",
        by unfold QueryContext.getVariableFrag; rw [h2]⟩
    | some a =>
      have hthis := (find?_map_filter_queryResult c.variableMap hn v a).1 h2
      unfold QueryContext.lookupVar at hv
      rw [hv] at hthis
      obtain ⟨ha, hq⟩ := hthis
      cases ha
      cases hq

/-- Witness for C5 at a concrete input: a parent context with one transient and
one query-result binding yields a pre-execution context in which the
query-result variable resolves and the transient variable does not. -/
theorem newPreExecContext_spec_witness :
    QueryContext.lookupVar
        (QueryContext.newPreExecContext ⟨[(⟨0, "tmp"⟩, .transient "tmp"), (⟨1, "created"⟩, .queryResult "created")]⟩)
        ⟨1, "created"⟩ = some (.queryResult "created")
    ∧ ∃ e, QueryContext.getVariableFrag
        (QueryContext.newPreExecContext ⟨[(⟨0, "tmp"⟩, .transient "tmp"), (⟨1, "created"⟩, .queryResult "created")]⟩)
        ⟨0, "tmp"⟩ = .error e :=
  ⟨((newPreExecContext_spec ⟨[(⟨0, "tmp"⟩, .transient "tmp"), (⟨1, "created"⟩, .queryResult "created")]⟩
      (by decide)).2.1 ⟨1, "created"⟩ (.queryResult "created")).2 ⟨rfl, rfl⟩,
   (newPreExecContext_spec ⟨[(⟨0, "tmp"⟩, .transient "tmp"), (⟨1, "created"⟩, .queryResult "created")]⟩
      (by decide)).2.2 ⟨0, "tmp"⟩ "tmp" rfl⟩

/-! ### C7: the flex-search operators with language -/

/-- The analyzer name selected by the `OperatorWithLanguageQueryNode`
processor: `text_<lang>` (lowercased) when a language is given, the identity
analyzer otherwise. -/
def analyzerFor (lang : Option String) : String :=
  match lang with
  | some l => "text_" ++ l.toLower
  | none => IDENTITY_ANALYZER

/-- Claim C7 (counterexample): a `QUICKSEARCH_STARTS_WITH` node is lowered to a
bare `STARTS_WITH(lhs,rhs)` call; the emitted fragment is not wrapped in
`ANALYZER(...)` (it contains no `ANALYZER` at all), contradicting the claim
that every `OperatorWithLanguage` node emits an `ANALYZER(...)`-wrapped
predicate. -/
theorem operatorWithLanguage_starts_with_counterexample :
    processNode 2 (.operatorWithLanguage .QUICKSEARCH_STARTS_WITH
        (.literal (.vstr "a")) (.literal (.vstr "b")) none) ⟨[]⟩ ⟨[], []⟩
      = .ok ([.code "STARTS_WITH(", .boundValue (.vstr "a"), .code ",",
              .boundValue (.vstr "b"), .code ")"], ⟨[], []⟩)
    ∧ fragMentionsCode "ANALYZER"
        [.code "STARTS_WITH(", .boundValue (.vstr "a"), .code ",",
         .boundValue (.vstr "b"), .code ")"] = false :=
  ⟨rfl, by decide⟩

/-- Claim C7 (amended): the three language-aware operators
(`QUICKSEARCH_CONTAINS_ANY_WORD`, `QUICKSEARCH_CONTAINS_PREFIX`,
`QUICKSEARCH_CONTAINS_PHRASE`) emit `ANALYZER(...)`-wrapped search predicates
using the analyzer `text_<lang>` (lowercased language tag) when a language is
given and the identity analyzer otherwise, while `QUICKSEARCH_STARTS_WITH`
emits a bare `STARTS_WITH(lhs,rhs)` predicate with no `ANALYZER` wrapper. -/
theorem operatorWithLanguage_lowering (fuel : Nat) (lhsNode rhsNode : QueryNode)
    (lang : Option String) (ctx : QueryContext) (st st1 st2 : AccessSets) (lhs rhs : AQLFragment)
    (hl : processNode fuel lhsNode ctx st = .ok (lhs, st1))
    (hr : processNode fuel rhsNode ctx st1 = .ok (rhs, st2)) :
    (processNode (fuel+1) (.operatorWithLanguage .QUICKSEARCH_STARTS_WITH lhsNode rhsNode lang) ctx st
        = .ok ([.code "STARTS_WITH("] ++ lhs ++ [.code ","] ++ rhs ++ [.code ")"], st2))
    ∧ (processNode (fuel+1) (.operatorWithLanguage .QUICKSEARCH_CONTAINS_ANY_WORD lhsNode rhsNode lang) ctx st
        = .ok ([.code "ANALYZER( "] ++ lhs ++ [.code " IN TOKENS("] ++ rhs
            ++ [.code ", ", .boundValue (.vstr (analyzerFor lang)), .code "),",
                .boundValue (.vstr (analyzerFor lang)), .code ")"], st2))
    ∧ (processNode (fuel+1) (.operatorWithLanguage .QUICKSEARCH_CONTAINS_PREFIX lhsNode rhsNode lang) ctx st
        = .ok ([.code "ANALYZER( STARTS_WITH( "] ++ lhs ++ [.code ", TOKENS("] ++ rhs
            ++ [.code ")[0]), ", .boundValue (.vstr (analyzerFor lang)), .code "))"], st2))
    ∧ (processNode (fuel+1) (.operatorWithLanguage .QUICKSEARCH_CONTAINS_PHRASE lhsNode rhsNode lang) ctx st
        = .ok ([.code "ANALYZER( PHRASE( "] ++ lhs ++ [.code ", "] ++ rhs
            ++ [.code "), ", .boundValue (.vstr (analyzerFor lang)), .code ")"], st2))
    ∧ (∀ l, lang = some l → analyzerFor lang = "text_" ++ l.toLower)
    ∧ (lang = none → analyzerFor lang = "identity") := by
  refine ⟨?_, ?_, ?_, ?_, fun l hle => by rw [hle]; rfl, fun hle => by rw [hle]; rfl⟩
  all_goals
    simp only [processNode, hl, hr]
    try (cases lang <;> rfl)

/-- Witness for C7 (amended) at a concrete input: lowering a
`QUICKSEARCH_CONTAINS_PHRASE` node with language `DE` yields the
`ANALYZER`-wrapped phrase predicate with analyzer `text_de`. -/
theorem operatorWithLanguage_lowering_witness :
    processNode 2 (.operatorWithLanguage .QUICKSEARCH_CONTAINS_PHRASE
        (.literal (.vstr "description")) (.literal (.vstr "a phrase")) (some "DE")) ⟨[]⟩ ⟨[], []⟩
      = .ok ([.code "ANALYZER( PHRASE( ", .boundValue (.vstr "description"), .code ", ",
              .boundValue (.vstr "a phrase"), .code "), ",
              .boundValue (.vstr (analyzerFor (some "DE"))), .code ")"], ⟨[], []⟩) :=
  (operatorWithLanguage_lowering 1 (.literal (.vstr "description")) (.literal (.vstr "a phrase"))
    (some "DE") ⟨[]⟩ ⟨[], []⟩ ⟨[], []⟩ ⟨[], []⟩
    [.boundValue (.vstr "description")] [.boundValue (.vstr "a phrase")] rfl rfl).2.2.2.1

/-! ### C1: LIKE lowering -/

/-- Claim C1: a `LIKE` binary operation with a non-literal right-hand side
lowers to the case-insensitive `LIKE(lhs, rhs, true)`; with a literal string
pattern, an entirely literal pattern lowers to an equals-ignore-case query
(plain equality when the pattern has no case-sensitive characters, otherwise
the range `lhs >= UPPER(value) && lhs <= LOWER(value)`), a literal prefix
followed only by `%` lowers to just the fast range query (`IS_STRING(lhs)` for
the empty prefix, otherwise
`lhs >= UPPER(prefix) && lhs < LOWER(prefix + U+10FFFF)`), and any other
pattern lowers to the conjunction of the fast range over the literal prefix
and the slow `LIKE(lhs, rhs, true)` check. -/
theorem binaryOp_like_lowering (fuel : Nat) (lhsNode rhsNode : QueryNode)
    (ctx : QueryContext) (st st1 st2 : AccessSets) (lhs rhs : AQLFragment)
    (hl : processNode fuel lhsNode ctx st = .ok (lhs, st1))
    (hr : processNode fuel rhsNode ctx st1 = .ok (rhs, st2)) :
    ((∀ s, rhsNode ≠ .literal (.vstr s)) →
      processNode (fuel+1) (.binaryOp .LIKE lhsNode rhsNode) ctx st
        = .ok ([.code "LIKE("] ++ lhs ++ [.code ", "] ++ rhs ++ [.code ", true)"], st2))
    ∧ (∀ s, rhsNode = .literal (.vstr s) →
        ((analyzeLikePatternPrefix s).isLiteralPattern = true →
          processNode (fuel+1) (.binaryOp .LIKE lhsNode rhsNode) ctx st
            = .ok ((if isStringCaseInsensitive s then
                      [.code "("] ++ lhs ++ [.code " == ", .boundValue (.vstr s), .code ")"]
                    else
                      [.code "("] ++ lhs ++ [.code " >= UPPER(", .boundValue (.vstr s), .code ") && "]
                        ++ lhs ++ [.code " <= LOWER(", .boundValue (.vstr s), .code "))"]), st2))
        ∧ ((analyzeLikePatternPrefix s).isLiteralPattern = false →
            (analyzeLikePatternPrefix s).isSimplePrefixPattern = true →
          processNode (fuel+1) (.binaryOp .LIKE lhsNode rhsNode) ctx st
            = .ok ((if (analyzeLikePatternPrefix s).literalPrefix.length == 0 then
                      [.code "IS_STRING("] ++ lhs ++ [.code ")"]
                    else
                      [.code "("] ++ lhs
                        ++ [.code " >= UPPER(", .boundValue (.vstr (analyzeLikePatternPrefix s).literalPrefix), .code ") && "]
                        ++ lhs
                        ++ [.code " < LOWER(",
                            .boundValue (.vstr ((analyzeLikePatternPrefix s).literalPrefix.push maxLikeChar)),
                            .code "))"]), st2))
        ∧ ((analyzeLikePatternPrefix s).isLiteralPattern = false →
            (analyzeLikePatternPrefix s).isSimplePrefixPattern = false →
          processNode (fuel+1) (.binaryOp .LIKE lhsNode rhsNode) ctx st
            = .ok ([.code "("]
                ++ getFastStartsWithQuery lhs (analyzeLikePatternPrefix s).literalPrefix
                ++ [.code " && "]
                ++ ([.code "LIKE("] ++ lhs ++ [.code ", "] ++ rhs ++ [.code ", true)"])
                ++ [.code ")"], st2))) := by
  constructor
  · intro h
    simp only [processNode, hl, hr, getAQLOperator]
  · rintro s rfl
    refine ⟨fun h1 => ?_, fun h1 h2 => ?_, fun h1 h2 => ?_⟩
    · simp only [processNode, hl, hr, getAQLOperator, h1, if_true]
      rw [literalPrefix_of_isLiteralPattern s h1]
      unfold getEqualsIgnoreCaseQuery
      rfl
    · simp only [processNode, hl, hr, getAQLOperator, h1, h2, if_true, Bool.false_eq_true, if_false]
      unfold getFastStartsWithQuery
      rfl
    · simp only [processNode, hl, hr, getAQLOperator, h1, h2, Bool.false_eq_true, if_false]

/-- Witness for C1 at a concrete input: the simple prefix pattern `abc%` on a
`null` left-hand side lowers to just the fast range query over `abc`. -/
theorem binaryOp_like_lowering_witness :
    processNode 2 (.binaryOp .LIKE .nullNode (.literal (.vstr "abc%"))) ⟨[]⟩ ⟨[], []⟩
      = .ok ([.code "(", .code "null", .code " >= UPPER(", .boundValue (.vstr "abc"), .code ") && ",
              .code "null", .code " < LOWER(", .boundValue (.vstr ("abc".push maxLikeChar)), .code "))"],
             ⟨[], []⟩) := by
  have h := (binaryOp_like_lowering 1 .nullNode (.literal (.vstr "abc%")) ⟨[]⟩ ⟨[], []⟩ ⟨[], []⟩ ⟨[], []⟩
    [.code "null"] [.boundValue (.vstr "abc%")] rfl rfl).2 "abc%" rfl
  have h2 := h.2.1 (by decide) (by decide)
  simpa using h2

/-! ### C2: count-based quantifier lowering -/

/-- Claim C2: when the array-expansion fast path does not apply, a
`QuantifierFilter` node is lowered by rewriting `every` to `none` with the
negated condition and emitting the COUNT of the condition-filtered list
compared with the literal 0: `some` becomes `COUNT(filtered) > 0` and `none`
(including rewritten `every`) becomes `COUNT(filtered) == 0`. -/
theorem quantifierFilter_count_lowering (fuel : Nat) (q : Quantifier)
    (listNode : QueryNode) (itemVariable : QVarNode) (conditionNode : QueryNode)
    (ctx : QueryContext) (st : AccessSets)
    (hfast : getQuantifierFilterUsingArrayExpansion fuel q (simplifyBooleans conditionNode)
        listNode itemVariable ctx st = .ok none) :
    processNode (fuel+1) (.quantifierFilter q listNode itemVariable conditionNode) ctx st
      = processNode fuel
          (.binaryOp (match q with | .qsome => .GREATER_THAN | _ => .EQUAL)
            (.count (.transformList listNode itemVariable
              (match q with
               | .qevery => notNode (simplifyBooleans conditionNode)
               | _ => simplifyBooleans conditionNode)
              [] 0 none (.variable itemVariable)))
            (.literal (.vint 0))) ctx st := by
  simp only [processNode]
  rw [show quantifierFastCore (fun n c s => processNode fuel n c s) q
      (simplifyBooleans conditionNode) listNode itemVariable ctx st = Except.ok none from hfast]
  cases q <;> rfl

/-- Witness for C2 at a concrete input: an `every` filter over a list literal
lowers to the count-based form with the negated condition compared to 0. -/
theorem quantifierFilter_count_lowering_witness :
    processNode 9 (.quantifierFilter .qevery (.listNode []) ⟨1, "i"⟩
        (.binaryOp .EQUAL (.variable ⟨1, "i"⟩) (.literal (.vstr "x")))) ⟨[]⟩ ⟨[], []⟩
      = processNode 8 (.binaryOp .EQUAL
          (.count (.transformList (.listNode []) ⟨1, "i"⟩
            (notNode (simplifyBooleans (.binaryOp .EQUAL (.variable ⟨1, "i"⟩) (.literal (.vstr "x")))))
            [] 0 none (.variable ⟨1, "i"⟩)))
          (.literal (.vint 0))) ⟨[]⟩ ⟨[], []⟩ :=
  quantifierFilter_count_lowering 8 .qevery (.listNode []) ⟨1, "i"⟩
    (.binaryOp .EQUAL (.variable ⟨1, "i"⟩) (.literal (.vstr "x"))) ⟨[]⟩ ⟨[], []⟩ rfl

/-! ### C3: the array-expansion fast path -/

/-- The field-access fragments of a field chain contain no `FOR` code. -/
theorem fieldAccess_no_FOR (fields : List FieldT) :
    fragMentionsCode "FOR" ((fields.map getFieldAccessFragment).flatten) = false := by
  induction fields with
  | nil => rfl
  | cons f rest ih =>
    simp only [List.map_cons, List.flatten_cons, fragMentionsCode_append, ih, Bool.or_false]
    unfold getFieldAccessFragment
    split <;> rfl

/-- Claim C3: the array-expansion fast path succeeds exactly when the
quantifier is `some`, the (possibly SafeList-wrapped) list node is a field
access, the condition is a binary operation whose operator is `EQUAL` or
`LIKE` with an entirely literal pattern without case-sensitive characters, and
the condition's lhs is a chain of field accesses starting at the item
variable; in that case the emitted fragment is
`value IN list[*].path.to.field`, which introduces no `FOR` loop.  For `every`
and `none` the fast path is never taken. -/
theorem arrayExpansion_characterization (fuel : Nat) (q : Quantifier)
    (conditionNode listNode : QueryNode) (itemVariable : QVarNode)
    (ctx : QueryContext) (st : AccessSets) :
    (q ≠ .qsome →
      getQuantifierFilterUsingArrayExpansion fuel q conditionNode listNode itemVariable ctx st
        = .ok none)
    ∧ (∀ f st2,
        getQuantifierFilterUsingArrayExpansion fuel q conditionNode listNode itemVariable ctx st
          = .ok (some (f, st2)) →
        q = .qsome
        ∧ (∃ o fl pth, unwrapSafeList listNode = .field o fl pth)
        ∧ (∃ op condLhs condRhs fields valueFrag listFrag st1,
            conditionNode = .binaryOp op condLhs condRhs
            ∧ (op = .EQUAL
               ∨ (op = .LIKE ∧ ∃ pat, condRhs = .literal (.vstr pat)
                   ∧ (analyzeLikePatternPrefix pat).isLiteralPattern = true
                   ∧ isStringCaseInsensitive pat = true))
            ∧ collectFieldChain itemVariable condLhs = some fields
            ∧ processNode fuel condRhs ctx st = .ok (valueFrag, st1)
            ∧ processNode fuel (unwrapSafeList listNode) ctx st1 = .ok (listFrag, st2)
            ∧ f = valueFrag ++ [.code " IN "] ++ listFrag ++ [.code "[*]"]
                ++ (fields.map getFieldAccessFragment).flatten
            ∧ (fragMentionsCode "FOR" valueFrag = false →
                fragMentionsCode "FOR" listFrag = false →
                fragMentionsCode "FOR" f = false)))
    ∧ (∀ o fl pth op condLhs condRhs fields valueFrag listFrag st1 st2,
        q = .qsome →
        unwrapSafeList listNode = .field o fl pth →
        conditionNode = .binaryOp op condLhs condRhs →
        (op = .EQUAL
         ∨ (op = .LIKE ∧ ∃ pat, condRhs = .literal (.vstr pat)
             ∧ (analyzeLikePatternPrefix pat).isLiteralPattern = true
             ∧ isStringCaseInsensitive pat = true)) →
        collectFieldChain itemVariable condLhs = some fields →
        processNode fuel condRhs ctx st = .ok (valueFrag, st1) →
        processNode fuel (unwrapSafeList listNode) ctx st1 = .ok (listFrag, st2) →
        getQuantifierFilterUsingArrayExpansion fuel q conditionNode listNode itemVariable ctx st
          = .ok (some (valueFrag ++ [.code " IN "] ++ listFrag ++ [.code "[*]"]
              ++ (fields.map getFieldAccessFragment).flatten, st2))) := by
  refine ⟨?_, ?_, ?_⟩
  · intro hq
    unfold getQuantifierFilterUsingArrayExpansion quantifierFastCore
    cases q with
    | qsome => exact absurd rfl hq
    | qevery => rfl
    | qnone => rfl
  · intro f st2 h
    unfold getQuantifierFilterUsingArrayExpansion quantifierFastCore at h
    cases q with
    | qevery => exact absurd h (by simp)
    | qnone => exact absurd h (by simp)
    | qsome =>
      simp only [] at h
      generalize hu : unwrapSafeList listNode = l2 at h
      cases l2 <;> try exact Option.noConfusion (Except.ok.inj h)
      next o fl pth =>
      cases conditionNode <;> try exact Option.noConfusion (Except.ok.inj h)
      next op condLhs condRhs =>
      dsimp only [] at h
      generalize hok : quantifierOperatorOk op condRhs = opOk at h
      cases opOk
      · rw [if_neg (by simp)] at h
        exact Option.noConfusion (Except.ok.inj h)
      · rw [if_pos rfl] at h
        generalize hchain : collectFieldChain itemVariable condLhs = fc at h
        cases fc with
        | none => exact Option.noConfusion (Except.ok.inj h)
        | some fields =>
          dsimp only [] at h
          cases hval : processNode fuel condRhs ctx st with
          | error e => rw [hval] at h; exact Except.noConfusion h
          | ok p1 =>
            obtain ⟨valueFrag, st1⟩ := p1
            rw [hval] at h
            dsimp only [] at h
            cases hlist : processNode fuel (.field o fl pth) ctx st1 with
            | error e => rw [hlist] at h; exact Except.noConfusion h
            | ok p2 =>
              obtain ⟨listFrag, st2x⟩ := p2
              rw [hlist] at h
              dsimp only [] at h
              have hf : valueFrag ++ [AQLToken.code " IN "] ++ listFrag ++ [AQLToken.code "[*]"]
                  ++ (fields.map getFieldAccessFragment).flatten = f ∧ st2x = st2 := by
                cases h
                exact ⟨rfl, rfl⟩
              obtain ⟨hf, rfl⟩ := hf
              have hopdisj : op = .EQUAL
                  ∨ (op = .LIKE ∧ ∃ pat, condRhs = .literal (.vstr pat)
                      ∧ (analyzeLikePatternPrefix pat).isLiteralPattern = true
                      ∧ isStringCaseInsensitive pat = true) := by
                unfold quantifierOperatorOk at hok
                cases op <;> try exact Bool.noConfusion hok
                · exact Or.inl rfl
                · refine Or.inr ⟨rfl, ?_⟩
                  cases condRhs <;> try exact Bool.noConfusion hok
                  next v =>
                  cases v <;> try exact Bool.noConfusion hok
                  next pat =>
                  simp only [Bool.and_eq_true] at hok
                  exact ⟨pat, rfl, hok.1, hok.2⟩
              refine ⟨rfl, ⟨o, fl, pth, rfl⟩,
                op, condLhs, condRhs, fields, valueFrag, listFrag, st1, rfl, hopdisj, hchain,
                hval, hlist, hf.symm, ?_⟩
              intro hv hlf
              rw [← hf]
              simp only [fragMentionsCode_append, hv, hlf, fieldAccess_no_FOR, Bool.or_false,
                Bool.false_or]
              rfl
  · rintro o fl pth op condLhs condRhs fields valueFrag listFrag st1 st2 rfl hu rfl hop hchain hval hlist
    unfold getQuantifierFilterUsingArrayExpansion quantifierFastCore
    rw [hu] at hlist
    have hopok : quantifierOperatorOk op condRhs = true := by
      unfold quantifierOperatorOk
      rcases hop with rfl | ⟨rfl, pat, rfl, h1, h2⟩
      · rfl
      · simp [h1, h2]
    simp only [hu, hopok, if_true, hchain, hval, hlist]

/-- Witness for C3 at a concrete input (the `items_some: {itemNumber: "abc"}`
scenario): the fast path emits `@value IN v.items[*].itemNumber`. -/
theorem arrayExpansion_characterization_witness :
    getQuantifierFilterUsingArrayExpansion 2 .qsome
        (.binaryOp .EQUAL (.field (.variable ⟨1, "i"⟩) ⟨"itemNumber"⟩ []) (.literal (.vstr "abc")))
        (.field (.variable ⟨0, "v"⟩) ⟨"items"⟩ []) ⟨1, "i"⟩
        ⟨[(⟨0, "v"⟩, .transient "v")]⟩ ⟨[], []⟩
      = .ok (some ([.boundValue (.vstr "abc")] ++ [.code " IN "]
          ++ [.variable "v", .code ".", .identifier "items"] ++ [.code "[*]"]
          ++ (([⟨"itemNumber"⟩] : List FieldT).map getFieldAccessFragment).flatten,
          ⟨[], []⟩)) :=
  (arrayExpansion_characterization 2 .qsome
      (.binaryOp .EQUAL (.field (.variable ⟨1, "i"⟩) ⟨"itemNumber"⟩ []) (.literal (.vstr "abc")))
      (.field (.variable ⟨0, "v"⟩) ⟨"items"⟩ []) ⟨1, "i"⟩
      ⟨[(⟨0, "v"⟩, .transient "v")]⟩ ⟨[], []⟩).2.2
    (.variable ⟨0, "v"⟩) ⟨"items"⟩ [] .EQUAL
    (.field (.variable ⟨1, "i"⟩) ⟨"itemNumber"⟩ []) (.literal (.vstr "abc"))
    [⟨"itemNumber"⟩] [.boundValue (.vstr "abc")] [.variable "v", .code ".", .identifier "items"]
    ⟨[], []⟩ ⟨[], []⟩ rfl rfl rfl (Or.inl rfl) rfl rfl rfl

/-! ### C10: collection accesses of the edge mutations -/

/-- True for an absent edge id node or a literal string key (formatting such a
node reads no collection). -/
def literalIdNode : Option QueryNode → Bool
  | none => true
  | some (.literal (.vstr _)) => true
  | some _ => false

/-- True when both id nodes of an edge identifier are absent or literal. -/
def edgeIdNodesLiteral (e : Option QueryNode × Option QueryNode) : Bool :=
  literalIdNode e.1 && literalIdNode e.2

/-- True for an absent edge filter id node or a literal list of string keys. -/
def literalIdsNode : Option QueryNode → Bool
  | none => true
  | some n => (literalStringListOf n).isSome

/-- Formatting an edge whose id nodes are literals leaves the collection sets
unchanged. -/
theorem formatEdgeCore_literal (pn : NodeProc) (relation : RelationT)
    (e : Option QueryNode × Option QueryNode) (ctx : QueryContext) (st : AccessSets)
    (h : edgeIdNodesLiteral e = true) :
    ∃ frag, formatEdgeCore pn relation e ctx st = .ok (frag, st) := by
  obtain ⟨e1, e2⟩ := e
  simp only [edgeIdNodesLiteral, Bool.and_eq_true] at h
  obtain ⟨h1, h2⟩ := h
  cases e1 with
  | none =>
    cases e2 with
    | none => exact ⟨_, rfl⟩
    | some n =>
      cases n <;> try exact Bool.noConfusion h2
      next v =>
      cases v <;> try exact Bool.noConfusion h2
      exact ⟨_, rfl⟩
  | some n =>
    cases n <;> try exact Bool.noConfusion h1
    next v =>
    cases v <;> try exact Bool.noConfusion h1
    next s =>
    cases e2 with
    | none => exact ⟨_, rfl⟩
    | some n2 =>
      cases n2 <;> try exact Bool.noConfusion h2
      next v2 =>
      cases v2 <;> try exact Bool.noConfusion h2
      exact ⟨_, rfl⟩

/-- Formatting a list of edges whose id nodes are literals leaves the
collection sets unchanged. -/
theorem mapFrags_formatEdge_literal (pn : NodeProc) (relation : RelationT)
    (ctx : QueryContext) (edges : List (Option QueryNode × Option QueryNode)) (st : AccessSets)
    (h : edges.all edgeIdNodesLiteral = true) :
    ∃ frags, mapFragsCore (fun e s => formatEdgeCore pn relation e ctx s) edges st
      = .ok (frags, st) := by
  induction edges with
  | nil => exact ⟨[], rfl⟩
  | cons e rest ih =>
    rw [List.all_cons, Bool.and_eq_true] at h
    obtain ⟨f1, hf1⟩ := formatEdgeCore_literal pn relation e ctx st h.1
    obtain ⟨fs, hfs⟩ := ih h.2
    exact ⟨f1 :: fs, by simp only [mapFragsCore, hf1, hfs]⟩

/-- Resolving a literal list of string keys to full ids leaves the collection
sets unchanged. -/
theorem getFullIDsFromKeysNodeCore_literal (pn : NodeProc) (idsNode : QueryNode)
    (t : RootEntityTypeT) (ctx : QueryContext) (st : AccessSets)
    (h : (literalStringListOf idsNode).isSome = true) :
    ∃ frag, getFullIDsFromKeysNodeCore pn idsNode t ctx st = .ok (frag, st) := by
  cases hss : literalStringListOf idsNode with
  | none => rw [hss] at h; exact Bool.noConfusion h
  | some ids =>
    cases idsNode <;> try exact Option.noConfusion hss
    next v =>
    exact ⟨_, by unfold getFullIDsFromKeysNodeCore; rw [hss]⟩

/-- Claim C10: lowering `RemoveEdges` adds the relation's edge collection to
both the read- and the write-accessed collection sets (the edges are iterated
before being removed), whereas lowering `AddEdges` or `SetEdge` adds the edge
collection only to the write-accessed set (stated here for edges given by
literal keys, so that no other node contributes accesses). -/
theorem edge_mutation_collection_access (fuel : Nat) (relation : RelationT)
    (ctx : QueryContext) (st : AccessSets) :
    (∀ edges, edges.all edgeIdNodesLiteral = true →
      ∃ frag, processNode (fuel+1) (.addEdges relation edges) ctx st
        = .ok (frag, st.addCollectionAccess relation.collectionName .WRITE))
    ∧ (∀ fromIDsNode toIDsNode,
        literalIdsNode fromIDsNode = true → literalIdsNode toIDsNode = true →
        ∃ frag, processNode (fuel+1) (.removeEdges relation fromIDsNode toIDsNode) ctx st
          = .ok (frag, (st.addCollectionAccess relation.collectionName .READ).addCollectionAccess
              relation.collectionName .WRITE))
    ∧ (∀ existingEdge newEdge,
        edgeIdNodesLiteral existingEdge = true → edgeIdNodesLiteral newEdge = true →
        ∃ frag, processNode (fuel+1) (.setEdge relation existingEdge newEdge) ctx st
          = .ok (frag, st.addCollectionAccess relation.collectionName .WRITE))
    ∧ (st.addCollectionAccess relation.collectionName .READ).readAccessedCollections
        = setAdd st.readAccessedCollections relation.collectionName
    ∧ (st.addCollectionAccess relation.collectionName .READ).writeAccessedCollections
        = st.writeAccessedCollections
    ∧ (st.addCollectionAccess relation.collectionName .WRITE).writeAccessedCollections
        = setAdd st.writeAccessedCollections relation.collectionName
    ∧ (st.addCollectionAccess relation.collectionName .WRITE).readAccessedCollections
        = st.readAccessedCollections := by
  refine ⟨?_, ?_, ?_, rfl, rfl, rfl, rfl⟩
  · intro edges h
    obtain ⟨frags, hfrags⟩ := mapFrags_formatEdge_literal
      (fun n c s1 => processNode fuel n c s1) relation ctx edges st h
    exact ⟨_, by simp only [processNode, hfrags, getCollectionForRelation,
      getCollectionNameForRelation]; rfl⟩
  · intro fromN toN hf ht
    cases fromN with
    | none =>
      cases toN with
      | none => exact ⟨_, rfl⟩
      | some n =>
        obtain ⟨f2, hf2⟩ := getFullIDsFromKeysNodeCore_literal
          (fun n1 c s => processNode fuel n1 c s) n relation.toType ctx st ht
        exact ⟨_, by simp only [processNode, hf2, getCollectionForRelation,
          getCollectionNameForRelation]; rfl⟩
    | some n1 =>
      obtain ⟨f1, hf1⟩ := getFullIDsFromKeysNodeCore_literal
        (fun n2 c s => processNode fuel n2 c s) n1 relation.fromType ctx st hf
      cases toN with
      | none => exact ⟨_, by simp only [processNode, hf1, getCollectionForRelation,
          getCollectionNameForRelation]; rfl⟩
      | some n2 =>
        obtain ⟨f2, hf2⟩ := getFullIDsFromKeysNodeCore_literal
          (fun n3 c s => processNode fuel n3 c s) n2 relation.toType ctx st ht
        exact ⟨_, by simp only [processNode, hf1, hf2, getCollectionForRelation,
          getCollectionNameForRelation]; rfl⟩
  · intro existingEdge newEdge he hn
    obtain ⟨f1, hf1⟩ := formatEdgeCore_literal
      (fun n c s1 => processNode fuel n c s1) relation existingEdge ctx st he
    obtain ⟨f2, hf2⟩ := formatEdgeCore_literal
      (fun n c s1 => processNode fuel n c s1) relation newEdge ctx st hn
    exact ⟨_, by simp only [processNode, hf1, hf2, getCollectionForRelation,
      getCollectionNameForRelation]; rfl⟩

/-- Witness for C10 at a concrete input: removing edges by a literal key list
records the edge collection as both read- and write-accessed. -/
theorem edge_mutation_collection_access_witness :
    ∃ frag, processNode 3
        (.removeEdges ⟨"deliveries_handlingUnits", ⟨"Delivery", "deliveries"⟩, ⟨"HandlingUnit", "handlingUnits"⟩⟩
          (some (.literal (.vlist [.vstr "key1"]))) none) ⟨[]⟩ ⟨[], []⟩
      = .ok (frag, ⟨["deliveries_handlingUnits"], ["deliveries_handlingUnits"]⟩) :=
  (edge_mutation_collection_access 2
    ⟨"deliveries_handlingUnits", ⟨"Delivery", "deliveries"⟩, ⟨"HandlingUnit", "handlingUnits"⟩⟩
    ⟨[]⟩ ⟨[], []⟩).2.1 (some (.literal (.vlist [.vstr "key1"]))) none rfl rfl

/-! ### C4: the TransformList LIMIT matrix -/

/-- Claim C4: every successfully lowered `TransformList` node emits a block
whose LIMIT slot is exactly the clause determined by `(skip, maxCount)`:
`LIMIT maxCount` when `maxCount` is set and `skip = 0`; `LIMIT skip, maxCount`
when `maxCount` is set and `skip > 0`; `LIMIT skip, MAX_SAFE_INTEGER` when
`maxCount` is unset and `skip > 0`; and no LIMIT clause (the empty fragment)
when `maxCount` is unset and `skip = 0`. -/
theorem transformList_limit_clause (fuel : Nat) (listNode : QueryNode) (itemVariable : QVarNode)
    (filterNode : QueryNode) (orderBy : List (QueryNode × OrderDirection)) (skip : Nat)
    (maxCount : Option Nat) (innerNode : QueryNode) (ctx : QueryContext) (st st' : AccessSets)
    (frag : AQLFragment)
    (h : processNode (fuel+1)
        (.transformList listNode itemVariable filterNode orderBy skip maxCount innerNode) ctx st
      = .ok (frag, st')) :
    (∃ itemVarF listF filterF danglingF sortF indirF assignFs returnF,
      frag = parenthesizeList
        ([[.code "FOR "] ++ itemVarF, [.code "IN "] ++ listF, filterF, danglingF, sortF,
          limitClauseFor skip maxCount, indirF] ++ assignFs ++ [[.code "RETURN "] ++ returnF]))
    ∧ (∀ n, maxCount = some n → skip = 0 →
        limitClauseFor skip maxCount = [.code "LIMIT ", .boundValue (.vint n)])
    ∧ (∀ n, maxCount = some n → 0 < skip →
        limitClauseFor skip maxCount
          = [.code "LIMIT ", .boundValue (.vint skip), .code ", ", .boundValue (.vint n)])
    ∧ (maxCount = none → 0 < skip →
        limitClauseFor skip maxCount
          = [.code "LIMIT ", .boundValue (.vint skip), .code ", ",
             .boundValue (.vint 9007199254740991)])
    ∧ (maxCount = none → skip = 0 → limitClauseFor skip maxCount = []) := by
  refine ⟨?_, ?_, ?_, ?_, ?_⟩
  · simp only [processNode] at h
    repeat'
      first
        | exact Except.noConfusion h
        | split at h
        | dsimp only [] at h
    all_goals
      cases h
      exact ⟨_, _, _, _, _, _, _, _, rfl⟩
  · rintro n rfl rfl
    rfl
  · rintro n rfl hs
    have hne : (skip == 0) = false := by simpa using Nat.pos_iff_ne_zero.mp hs
    simp [limitClauseFor, hne]
  · rintro rfl hs
    simp [limitClauseFor, hs]
  · rintro rfl rfl
    rfl

/-- Witness for C4 at a concrete input: a `TransformList` with `skip = 0` and
`maxCount = 10` over an empty list literal emits a block whose LIMIT slot is
`LIMIT 10`. -/
theorem transformList_limit_clause_witness :
    ∃ itemVarF listF filterF danglingF sortF indirF assignFs returnF,
      parenthesizeList
        ([[AQLToken.code "FOR ", AQLToken.variable "d"], [AQLToken.code "IN ", AQLToken.code "[]"],
          [], [], [], limitClauseFor 0 (some 10), []] ++ []
          ++ [[AQLToken.code "RETURN ", AQLToken.variable "d"]])
      = parenthesizeList
        ([[.code "FOR "] ++ itemVarF, [.code "IN "] ++ listF, filterF, danglingF, sortF,
          limitClauseFor 0 (some 10), indirF] ++ assignFs ++ [[.code "RETURN "] ++ returnF]) :=
  (transformList_limit_clause 1 (.listNode []) ⟨0, "d"⟩ (.constBool true) [] 0 (some 10)
    (.variable ⟨0, "d"⟩) ⟨[]⟩ ⟨[], []⟩ ⟨[], []⟩ _ rfl).1

end Cruddl
